import Mathlib

/-!
Shallow embedding of the VNULIB-Downloader post-download assembly pipeline.

Source of truth:
  * `src/modules/create_pdf.py` — class `CreatePDF` with methods
    `process` (the assembly task), `book_handler` (book fan-out) and
    `create_pdf` (the scheduler loop / `run()`).
  * `src/modules/user_options.py` — dataclasses `LinkFile` and `Link`
    (the Unit Model: a `Link` is a Unit, a `LinkFile` is a SubUnit).

Modelling conventions:
  * The filesystem is explicit state: an association list from directory
    path to its entry names in natural listing order (`os.listdir` order),
    plus an association list from (directory, file name) to file content.
  * A written PDF's content is modelled as the ordered list of source
    image paths that were merged into it, so that page order is observable.
  * Log lines are collected into a returned list; the source only ever
    calls `logger.info` inside the assembly code, the `error` severity
    constructor exists because the logging contract names both severities.
  * Python exceptions become explicit values: an exception raised inside a
    worker task is captured in its `Outcome` (the future is never
    collected by the source, so outcomes are recorded but unobserved);
    an exception raised in the dispatch loop propagates as `Except.error`.
  * `ProcessPoolExecutor` is modelled as a task queue: `submit` appends a
    task, `shutdown()` (which waits for completion) drains the whole queue
    before `create_pdf` returns.  Sub-unit directories are disjoint, so
    draining in submission order is a faithful interleaving.
-/

namespace VnuLib

/-- Python `s.endswith(suffix)`: decides whether `suffix` is a suffix of `s`. -/
def strEndsWith (s sfx : String) : Bool :=
  List.isSuffixOf sfx.data s.data

/-- Python `s.startswith(p)`: decides whether `p` is a prefix of `s`. -/
def strStartsWith (s p : String) : Bool :=
  List.isPrefixOf p.data s.data

/-- `os.path.join(a, b)` for POSIX paths, as used throughout
`create_pdf.py`: an absolute second component wins; otherwise the parts
are separated by exactly one slash. -/
def pathJoin (a b : String) : String :=
  if strStartsWith b "/" then b
  else if a = "" || strEndsWith a "/" then a ++ b
  else a ++ "/" ++ b

/-- Dataclass `LinkFile` of `user_options.py`: one SubUnit. -/
structure LinkFile where
  page_link : String
  num_pages : Int
  name : String
deriving DecidableEq

/-- Dataclass `Link` of `user_options.py`: one Unit.  `original_type` is
the kind tag matched by the scheduler: "book", "preview", "page", or
anything else for an unresolved link. -/
structure Link where
  original_link : String
  original_type : String
  files : List LinkFile
  name : String
deriving DecidableEq

/-- Explicit filesystem state.  `dirs` maps a directory path to its entry
names in natural listing order; `files` maps (directory, file name) to
the content of the file at `os.path.join(directory, file name)`. -/
structure FS where
  dirs : List (String × List String)
  files : List ((String × String) × List String)
deriving DecidableEq

/-- `os.listdir(d)`: `none` models the `FileNotFoundError` of a missing
directory, `some entries` the natural listing order. -/
def listdir (fs : FS) (d : String) : Option (List String) :=
  fs.dirs.lookup d

/-- Content of the file named `f` inside directory `d`, if it exists. -/
def readFile (fs : FS) (d f : String) : Option (List String) :=
  fs.files.lookup (d, f)

/-- Creating a file adds its name to the directory's listing (at the end,
if not already present). -/
def addEntry (dirs : List (String × List String)) (d f : String) :
    List (String × List String) :=
  dirs.map fun p => if p.1 = d then (p.1, if f ∈ p.2 then p.2 else p.2 ++ [f]) else p

/-- `open(os.path.join(d, f), "wb").write(content)`: records the content
and makes the new entry visible in the directory listing. -/
def writeFile (fs : FS) (d f : String) (content : List String) : FS :=
  ⟨addEntry fs.dirs d f, ((d, f), content) :: fs.files⟩

/-- A log line with its severity. -/
inductive LogEvent where
  | info (msg : String)
  | error (msg : String)
deriving DecidableEq

/-- The error-severity events of a log (the severity every failure event,
DirectoryMissing included, would carry). -/
def errorEvents (log : List LogEvent) : List LogEvent :=
  log.filter fun e => match e with
    | .error _ => true
    | .info _ => false

/-- The Python exceptions the assembly code can raise. -/
inductive PyError where
  | fileNotFoundError
  | indexError
deriving DecidableEq

/-- How one worker task ended: normal return, or an exception captured in
its (never collected) future. -/
inductive Outcome where
  | ok
  | exn (e : PyError)
deriving DecidableEq

/-- Result of one invocation of `CreatePDF.process`. -/
structure ProcResult where
  fs : FS
  log : List LogEvent
  outcome : Outcome
deriving DecidableEq

/-- Modelled from the spec: `img2pdf.convert` is an external codec not in
the repository.  Per §4.2 step 5, merging an empty input set produces no
output (`None`), and merging a non-empty ordered list of image files
produces one container whose page order is the input order; the
input-dependent CodecFailure case is outside the claims modelled here. -/
def img2pdf_convert (list_files : List String) : Option (List String) :=
  match list_files with
  | [] => none
  | fs => some fs

/-- `CreatePDF.process(directory, name)`: merge all images in a directory
into a single PDF.  Faithful to the source: compute the target path, log
an info line, list the directory (a missing directory raises
`FileNotFoundError`), skip if any listed path ends with ".pdf", convert,
and write the result only when the codec produced output. -/
def process (fs : FS) (directory name : String) : ProcResult :=
  let pdf_file_name := pathJoin directory (name ++ ".pdf")
  let log0 := [LogEvent.info ("Creating PDF: " ++ pdf_file_name)]
  match listdir fs directory with
  | none => ⟨fs, log0, .exn .fileNotFoundError⟩
  | some items =>
    let list_files := items.map (pathJoin directory)
    if list_files.any (fun file => strEndsWith file ".pdf") then
      ⟨fs, log0, .ok⟩
    else
      match img2pdf_convert list_files with
      | none => ⟨fs, log0, .ok⟩
      | some pdf =>
        ⟨writeFile fs directory (name ++ ".pdf") pdf,
         log0 ++ [LogEvent.info ("Created PDF: " ++ pdf_file_name)], .ok⟩

/-- One submitted assembly task: the two arguments `executor.submit`
captures for `CreatePDF.process`. -/
structure Task where
  directory : String
  name : String
deriving DecidableEq

/-- The artifact a task would produce: file `{name}.pdf` in its directory. -/
def Task.artifactDir (t : Task) : String := t.directory

/-- The artifact's file name `{name}.pdf`. -/
def Task.artifactFile (t : Task) : String := t.name ++ ".pdf"

/-- `CreatePDF.book_handler(book_directory, link)`: submit one task per
file of the book, addressed at `join(book_directory, file.name)` with
base name `file.name`. -/
def book_handler (book_directory : String) (link : Link) : List Task :=
  link.files.map fun file => ⟨pathJoin book_directory file.name, file.name⟩

/-- The dispatch decision of `CreatePDF.create_pdf` for one link: which
tasks get submitted.  Indexing `link.files[0]` on an empty list raises
`IndexError` in the dispatch loop itself. -/
def dispatchLink (download_directory : String) (link : Link) :
    Except PyError (List Task) :=
  match link.original_type with
  | "book" => .ok (book_handler (pathJoin download_directory link.name) link)
  | "preview" | "page" =>
    match link.files with
    | [] => .error .indexError
    | f :: _ => .ok [⟨pathJoin download_directory f.name, f.name⟩]
  | _ => .ok []

/-- The sequential dispatch loop over the whole link list; an exception
in the loop aborts dispatch and propagates to the caller. -/
def dispatchAll (download_directory : String) : List Link → Except PyError (List Task)
  | [] => .ok []
  | l :: ls => do
    let ts ← dispatchLink download_directory l
    let rest ← dispatchAll download_directory ls
    pure (ts ++ rest)

/-- Result of draining the worker pool: final filesystem, concatenated
log, and the captured outcome of every task in submission order. -/
structure RunResult where
  fs : FS
  log : List LogEvent
  outcomes : List Outcome
deriving DecidableEq

/-- Drain the task queue: run every submitted task, capturing each task's
outcome in its future; a task's exception never escapes the pool. -/
def runTasks (fs : FS) : List Task → RunResult
  | [] => ⟨fs, [], []⟩
  | t :: ts =>
    let r := process fs t.directory t.name
    let rest := runTasks r.fs ts
    ⟨rest.fs, r.log ++ rest.log, r.outcome :: rest.outcomes⟩

/-- `CreatePDF.create_pdf()` (the `run()` of the spec): dispatch every
link sequentially, then `executor.shutdown()` waits for all submitted
tasks to finish.  A dispatch-loop exception propagates to the caller;
task-level failures do not. -/
def create_pdf (links : List Link) (download_directory : String) (fs : FS) :
    Except PyError RunResult :=
  (dispatchAll download_directory links).map (runTasks fs)

/-- The `CreatePDF` object state: the borrowed link list and the root
download directory (`__init__`). -/
structure CreatePDF where
  links : List Link
  download_directory : String
deriving DecidableEq

/-- One full assembly pass over the object: returns the object state as
it stands after the pass together with the pass's result.  The source
never assigns to `self.links`, to `self.download_directory`, or to any
field of a `Link` or `LinkFile`, so the state after the pass is the state
before it. -/
def CreatePDF.run (s : CreatePDF) (fs : FS) :
    CreatePDF × Except PyError RunResult :=
  (s, create_pdf s.links s.download_directory fs)

/-- A task's source directory is ready when it exists, is non-empty, and
contains no entry whose joined path already ends with ".pdf": exactly the
condition under which `process` writes the artifact. -/
def readyDir (fs : FS) (t : Task) : Bool :=
  match listdir fs t.directory with
  | none => false
  | some entries =>
    !entries.isEmpty &&
      !((entries.map (pathJoin t.directory)).any fun file => strEndsWith file ".pdf")

/-! ### Concrete scenario data (spec §8 and small instances) -/

/-- The spec's concrete scenario: Book unit "novel" with chapters ch1 and ch2. -/
def bookNovel : Link :=
  ⟨"https://lib/book1", "book", [⟨"", -1, "ch1"⟩, ⟨"", -1, "ch2"⟩], "novel"⟩

/-- Filesystem for that scenario: ch1's directory holds three images,
ch2's directory is missing. -/
def fsNovelCh2Missing : FS :=
  ⟨[("/tmp/out/novel/ch1", ["a.img", "b.img", "c.img"])], []⟩

/-- Ten zero-padded page images, listed in ascending numeric order. -/
def pages10 : List String :=
  ["page-001.img", "page-002.img", "page-003.img", "page-004.img", "page-005.img",
   "page-006.img", "page-007.img", "page-008.img", "page-009.img", "page-010.img"]

/-- A directory holding exactly the ten pages, in natural listing order. -/
def fsPages10 : FS := ⟨[("/tmp/out/scan", pages10)], []⟩

/-- A preview link whose files list is empty (outside the precondition
that Preview/Page units carry exactly one sub-unit). -/
def previewNoFiles : Link := ⟨"https://lib/preview1", "preview", [], ""⟩

/-- A book link with no sub-units. -/
def bookNoFiles : Link := ⟨"https://lib/book2", "book", [], "emptybook"⟩

/-- A link still in its initial unresolved state: `original_type` is the
empty string, exactly as `user_options.py` constructs links. -/
def unresolvedLink : Link := ⟨"https://lib/unknown", "", [⟨"", -1, "x"⟩], ""⟩

/-- A resolved preview link with its single generated sub-unit. -/
def previewOne : Link :=
  ⟨"https://lib/preview2", "preview", [⟨"", 3, "2024-01-02 10-00-00-000000"⟩], ""⟩

/-- An existing but empty source directory. -/
def fsEmptyDir : FS := ⟨[("/tmp/out/2024-01-02 10-00-00-000000", [])], []⟩

deriving instance DecidableEq for Except

/-! ### Basic string and path lemmas -/

theorem strEndsWith_append_left (x b s : String) (h : strEndsWith b s = true) :
    strEndsWith (x ++ b) s = true := by
  unfold strEndsWith at h ⊢
  rw [List.isSuffixOf_iff_suffix] at h ⊢
  rw [String.data_append]
  exact h.trans (List.suffix_append x.data b.data)

theorem strEndsWith_pathJoin (a b s : String) (h : strEndsWith b s = true) :
    strEndsWith (pathJoin a b) s = true := by
  unfold pathJoin
  split
  · exact h
  · split
    · exact strEndsWith_append_left a b s h
    · rw [String.append_assoc]
      exact strEndsWith_append_left a ("/" ++ b) s (strEndsWith_append_left "/" b s h)

theorem string_append_left_cancel (a b c : String) (h : a ++ b = a ++ c) : b = c := by
  apply String.ext
  have hd : a.data ++ b.data = a.data ++ c.data := by
    rw [← String.data_append, ← String.data_append, h]
  exact List.append_cancel_left hd

theorem pathJoin_right_inj (a b₁ b₂ : String)
    (h₁ : strStartsWith b₁ "/" = false) (h₂ : strStartsWith b₂ "/" = false)
    (h : pathJoin a b₁ = pathJoin a b₂) : b₁ = b₂ := by
  unfold pathJoin at h
  rw [h₁, h₂] at h
  simp only [Bool.false_eq_true, if_false] at h
  by_cases ha : (a = "" || strEndsWith a "/") = true
  · rw [if_pos ha, if_pos ha] at h
    exact string_append_left_cancel a b₁ b₂ h
  · rw [if_neg ha, if_neg ha] at h
    rw [String.append_assoc, String.append_assoc] at h
    exact string_append_left_cancel a ("/" ++ b₁) ("/" ++ b₂) h |>
      string_append_left_cancel "/" b₁ b₂

/-! ### Filesystem lemmas -/

theorem lookup_addEntry_self (dirs : List (String × List String)) (d f : String)
    (es : List String) (h : dirs.lookup d = some es) :
    (addEntry dirs d f).lookup d = some (if f ∈ es then es else es ++ [f]) := by
  induction dirs with
  | nil => simp [List.lookup] at h
  | cons p rest ih =>
    obtain ⟨a, b⟩ := p
    by_cases hda : a = d
    · subst hda
      rw [List.lookup_cons, beq_self_eq_true] at h
      simp only at h
      injection h with h
      subst h
      simp only [addEntry, List.map, if_pos rfl, if_true]
      rw [List.lookup_cons, beq_self_eq_true]
    · have hba : (d == a) = false := beq_eq_false_iff_ne.mpr (Ne.symm hda)
      rw [List.lookup_cons, hba] at h
      simp only at h
      simp only [addEntry, List.map, if_neg hda]
      rw [List.lookup_cons, hba]
      simp only
      exact ih h

theorem lookup_addEntry_ne (dirs : List (String × List String)) (d d' f : String)
    (hne : d' ≠ d) : (addEntry dirs d f).lookup d' = dirs.lookup d' := by
  induction dirs with
  | nil => simp [addEntry]
  | cons p rest ih =>
    obtain ⟨a, b⟩ := p
    by_cases hda : a = d
    · subst hda
      have hba : (d' == a) = false := beq_eq_false_iff_ne.mpr hne
      simp only [addEntry, List.map, if_pos rfl, if_true]
      rw [List.lookup_cons, List.lookup_cons, hba]
      simp only
      exact ih
    · simp only [addEntry, List.map, if_neg hda]
      rw [List.lookup_cons, List.lookup_cons]
      cases hba : d' == a with
      | true => simp only
      | false => simp only; exact ih

theorem listdir_writeFile_self (fs : FS) (d f : String) (c es : List String)
    (h : listdir fs d = some es) :
    listdir (writeFile fs d f c) d = some (if f ∈ es then es else es ++ [f]) :=
  lookup_addEntry_self fs.dirs d f es h

theorem listdir_writeFile_ne (fs : FS) (d d' f : String) (c : List String)
    (hne : d' ≠ d) : listdir (writeFile fs d f c) d' = listdir fs d' :=
  lookup_addEntry_ne fs.dirs d d' f hne

theorem readFile_writeFile_self (fs : FS) (d f : String) (c : List String) :
    readFile (writeFile fs d f c) d f = some c := by
  simp [readFile, writeFile, List.lookup]

theorem readFile_writeFile_ne_dir (fs : FS) (d d' f f' : String) (c : List String)
    (hne : d' ≠ d) : readFile (writeFile fs d f c) d' f' = readFile fs d' f' := by
  have hba : ((d', f') == (d, f)) = false := by
    apply beq_eq_false_iff_ne.mpr
    intro hcontra
    exact hne (congrArg Prod.fst hcontra)
  simp [readFile, writeFile, List.lookup, hba]

/-! ### Behavior of one assembly task -/

theorem process_of_missing (fs : FS) (d nm : String) (h : listdir fs d = none) :
    process fs d nm =
      ⟨fs, [.info ("Creating PDF: " ++ pathJoin d (nm ++ ".pdf"))],
       .exn .fileNotFoundError⟩ := by
  simp [process, h]

theorem process_of_pdfEntry (fs : FS) (d nm : String) (entries : List String)
    (h : listdir fs d = some entries)
    (hany : (entries.map (pathJoin d)).any (fun file => strEndsWith file ".pdf") = true) :
    process fs d nm =
      ⟨fs, [.info ("Creating PDF: " ++ pathJoin d (nm ++ ".pdf"))], .ok⟩ := by
  simp [process, h, hany]

theorem process_of_emptyDir (fs : FS) (d nm : String)
    (h : listdir fs d = some []) :
    process fs d nm =
      ⟨fs, [.info ("Creating PDF: " ++ pathJoin d (nm ++ ".pdf"))], .ok⟩ := by
  simp [process, h, img2pdf_convert]

theorem process_of_ready (fs : FS) (d nm : String) (entries : List String)
    (h : listdir fs d = some entries) (hne : entries ≠ [])
    (hany : (entries.map (pathJoin d)).any (fun file => strEndsWith file ".pdf") = false) :
    process fs d nm =
      ⟨writeFile fs d (nm ++ ".pdf") (entries.map (pathJoin d)),
       [.info ("Creating PDF: " ++ pathJoin d (nm ++ ".pdf")),
        .info ("Created PDF: " ++ pathJoin d (nm ++ ".pdf"))], .ok⟩ := by
  cases entries with
  | nil => exact absurd rfl hne
  | cons e es =>
    unfold process
    rw [h]
    simp only
    rw [hany]
    simp [img2pdf_convert]

theorem process_fs_cases (fs : FS) (d nm : String) :
    (process fs d nm).fs = fs ∨
      ∃ c, (process fs d nm).fs = writeFile fs d (nm ++ ".pdf") c := by
  unfold process
  cases h : listdir fs d with
  | none => simp
  | some items =>
    simp only
    split
    · simp
    · cases hc : img2pdf_convert (items.map (pathJoin d)) with
      | none => simp [hc]
      | some pdf => right; exact ⟨pdf, by simp [hc]⟩

theorem process_listdir_ne (fs : FS) (d nm d' : String) (hne : d' ≠ d) :
    listdir (process fs d nm).fs d' = listdir fs d' := by
  rcases process_fs_cases fs d nm with h | ⟨c, h⟩
  · rw [h]
  · rw [h, listdir_writeFile_ne fs d d' (nm ++ ".pdf") c hne]

theorem process_readFile_ne (fs : FS) (d nm d' f' : String) (hne : d' ≠ d) :
    readFile (process fs d nm).fs d' f' = readFile fs d' f' := by
  rcases process_fs_cases fs d nm with h | ⟨c, h⟩
  · rw [h]
  · rw [h, readFile_writeFile_ne_dir fs d d' (nm ++ ".pdf") f' c hne]

theorem process_outcome (fs : FS) (d nm : String) :
    (process fs d nm).outcome =
      if (listdir fs d).isNone then Outcome.exn .fileNotFoundError else .ok := by
  unfold process
  cases h : listdir fs d with
  | none => simp
  | some items =>
    simp only [Option.isNone_some, Bool.false_eq_true, if_false]
    split
    · simp
    · cases hc : img2pdf_convert (items.map (pathJoin d)) with
      | none => simp [hc]
      | some pdf => simp [hc]

theorem process_errorEvents (fs : FS) (d nm : String) :
    errorEvents (process fs d nm).log = [] := by
  unfold process
  cases h : listdir fs d with
  | none => simp [errorEvents]
  | some items =>
    simp only
    split
    · simp [errorEvents]
    · cases hc : img2pdf_convert (items.map (pathJoin d)) with
      | none => simp [hc, errorEvents]
      | some pdf => simp [hc, errorEvents]

/-! ### Readiness of a task's source directory -/

theorem readyDir_elim (fs : FS) (t : Task) (h : readyDir fs t = true) :
    ∃ entries, listdir fs t.directory = some entries ∧ entries ≠ [] ∧
      ((entries.map (pathJoin t.directory)).any fun file => strEndsWith file ".pdf") = false := by
  unfold readyDir at h
  cases hld : listdir fs t.directory with
  | none => rw [hld] at h; exact absurd h (by simp)
  | some entries =>
    rw [hld] at h
    simp only [Bool.and_eq_true, Bool.not_eq_true'] at h
    exact ⟨entries, rfl, by simpa using h.1, h.2⟩

theorem readyDir_congr (fs₁ fs₂ : FS) (t : Task)
    (h : listdir fs₁ t.directory = listdir fs₂ t.directory) :
    readyDir fs₁ t = readyDir fs₂ t := by
  unfold readyDir
  rw [h]

theorem readyDir_isSome (fs : FS) (t : Task) (h : readyDir fs t = true) :
    (listdir fs t.directory).isNone = false := by
  obtain ⟨entries, hld, -, -⟩ := readyDir_elim fs t h
  simp [hld]

theorem process_of_readyDir (fs : FS) (t : Task) (h : readyDir fs t = true) :
    ∃ c, process fs t.directory t.name =
      ⟨writeFile fs t.directory (t.name ++ ".pdf") c,
       [.info ("Creating PDF: " ++ pathJoin t.directory (t.name ++ ".pdf")),
        .info ("Created PDF: " ++ pathJoin t.directory (t.name ++ ".pdf"))], .ok⟩ := by
  obtain ⟨entries, hld, hne, hany⟩ := readyDir_elim fs t h
  exact ⟨entries.map (pathJoin t.directory),
         process_of_ready fs t.directory t.name entries hld hne hany⟩

/-! ### Draining the task queue -/

theorem errorEvents_append (l₁ l₂ : List LogEvent) :
    errorEvents (l₁ ++ l₂) = errorEvents l₁ ++ errorEvents l₂ := by
  simp [errorEvents, List.filter_append]

theorem runTasks_errorEvents (fs : FS) (ts : List Task) :
    errorEvents (runTasks fs ts).log = [] := by
  induction ts generalizing fs with
  | nil => simp [runTasks, errorEvents]
  | cons t ts ih =>
    simp only [runTasks]
    rw [errorEvents_append, process_errorEvents fs t.directory t.name, ih]
    rfl

theorem runTasks_outcomes_length (fs : FS) (ts : List Task) :
    (runTasks fs ts).outcomes.length = ts.length := by
  induction ts generalizing fs with
  | nil => rfl
  | cons t ts ih => simp [runTasks, ih]

/-- Core isolation invariant of the drain: over tasks with pairwise
distinct directories, each either ready or with a missing directory, the
drain records exactly the expected outcome per task, produces the
artifact of every ready task, leaves every untouched directory (and the
missing-directory tasks' artifacts) unchanged. -/
theorem runTasks_isolated (fs : FS) (ts : List Task)
    (hdisj : ts.Pairwise fun a b => a.directory ≠ b.directory)
    (hok : ∀ t ∈ ts, readyDir fs t = true ∨ listdir fs t.directory = none) :
    ((runTasks fs ts).outcomes
        = ts.map fun t => if (listdir fs t.directory).isNone then
            Outcome.exn .fileNotFoundError else .ok)
    ∧ (∀ t ∈ ts, readyDir fs t = true →
        (readFile (runTasks fs ts).fs t.directory (t.name ++ ".pdf")).isSome = true)
    ∧ (∀ d f, (∀ t ∈ ts, t.directory ≠ d) →
        readFile (runTasks fs ts).fs d f = readFile fs d f
        ∧ listdir (runTasks fs ts).fs d = listdir fs d)
    ∧ (∀ t ∈ ts, listdir fs t.directory = none →
        readFile (runTasks fs ts).fs t.directory (t.name ++ ".pdf")
          = readFile fs t.directory (t.name ++ ".pdf")) := by
  induction ts generalizing fs with
  | nil => simp [runTasks]
  | cons t ts ih =>
    have hhead : ∀ t' ∈ ts, t.directory ≠ t'.directory :=
      (List.pairwise_cons.mp hdisj).1
    have hdisj' : ts.Pairwise fun a b => a.directory ≠ b.directory :=
      (List.pairwise_cons.mp hdisj).2
    rcases hok t (List.mem_cons_self t ts) with hready | hmiss
    · -- the head task's directory is ready: the artifact gets written
      obtain ⟨c, hproc⟩ := process_of_readyDir fs t hready
      have hfs1 : (process fs t.directory t.name).fs
          = writeFile fs t.directory (t.name ++ ".pdf") c := by rw [hproc]
      have hld1 : ∀ t' ∈ ts,
          listdir (process fs t.directory t.name).fs t'.directory
            = listdir fs t'.directory := by
        intro t' ht'
        exact process_listdir_ne fs t.directory t.name t'.directory
          (fun hEq => hhead t' ht' hEq.symm)
      have hok1 : ∀ t' ∈ ts,
          readyDir (process fs t.directory t.name).fs t' = true
          ∨ listdir (process fs t.directory t.name).fs t'.directory = none := by
        intro t' ht'
        rcases hok t' (List.mem_cons_of_mem t ht') with h | h
        · exact Or.inl (by
            rw [readyDir_congr (process fs t.directory t.name).fs fs t' (hld1 t' ht')]
            exact h)
        · exact Or.inr (by rw [hld1 t' ht']; exact h)
      obtain ⟨ihOut, ihProd, ihFrame, ihMiss⟩ :=
        ih (process fs t.directory t.name).fs hdisj' hok1
      obtain ⟨entries, hld, -, -⟩ := readyDir_elim fs t hready
      refine ⟨?_, ?_, ?_, ?_⟩
      · simp only [runTasks, ihOut, List.map_cons]
        rw [process_outcome fs t.directory t.name, hld]
        simp only [Option.isNone_some, Bool.false_eq_true, if_false]
        congr 1
        exact List.map_congr_left fun t' ht' => by rw [hld1 t' ht']
      · intro t' ht' hready'
        rcases List.mem_cons.mp ht' with rfl | ht'
        · have hfr := (ihFrame t'.directory (t'.name ++ ".pdf")
            (fun u hu hEq => hhead u hu hEq.symm)).1
          simp only [runTasks]
          rw [hfr, hfs1, readFile_writeFile_self]
          rfl
        · have : readyDir (process fs t.directory t.name).fs t' = true := by
            rw [readyDir_congr (process fs t.directory t.name).fs fs t' (hld1 t' ht')]
            exact hready'
          simpa only [runTasks] using ihProd t' ht' this
      · intro d f hall
        have htd : t.directory ≠ d := hall t (List.mem_cons_self t ts)
        have hfr := ihFrame d f (fun u hu => hall u (List.mem_cons_of_mem t hu))
        constructor
        · simp only [runTasks]
          rw [hfr.1, process_readFile_ne fs t.directory t.name d f (Ne.symm htd)]
        · simp only [runTasks]
          rw [hfr.2, process_listdir_ne fs t.directory t.name d (Ne.symm htd)]
      · intro t' ht' hmiss'
        rcases List.mem_cons.mp ht' with rfl | ht'
        · rw [hld] at hmiss'
          exact absurd hmiss' (by simp)
        · have hne : t'.directory ≠ t.directory := fun hEq => hhead t' ht' hEq.symm
          have h1 : listdir (process fs t.directory t.name).fs t'.directory = none := by
            rw [hld1 t' ht']; exact hmiss'
          have h2 := ihMiss t' ht' h1
          simp only [runTasks]
          rw [h2, process_readFile_ne fs t.directory t.name t'.directory
            (t'.name ++ ".pdf") hne]
    · -- the head task's directory is missing: the task aborts, state unchanged
      have hproc := process_of_missing fs t.directory t.name hmiss
      have hfs1 : (process fs t.directory t.name).fs = fs := by rw [hproc]
      obtain ⟨ihOut, ihProd, ihFrame, ihMiss⟩ := ih fs hdisj'
        (fun t' ht' => hok t' (List.mem_cons_of_mem t ht'))
      refine ⟨?_, ?_, ?_, ?_⟩
      · simp only [runTasks, hfs1, ihOut, List.map_cons]
        rw [process_outcome fs t.directory t.name, hmiss]
      · intro t' ht' hready'
        rcases List.mem_cons.mp ht' with rfl | ht'
        · obtain ⟨entries, hld, -, -⟩ := readyDir_elim fs t' hready'
          rw [hmiss] at hld
          exact absurd hld (by simp)
        · simpa only [runTasks, hfs1] using ihProd t' ht' hready'
      · intro d f hall
        have hfr := ihFrame d f (fun u hu => hall u (List.mem_cons_of_mem t hu))
        exact ⟨by simpa only [runTasks, hfs1] using hfr.1,
               by simpa only [runTasks, hfs1] using hfr.2⟩
      · intro t' ht' hmiss'
        rcases List.mem_cons.mp ht' with rfl | ht'
        · simpa only [runTasks, hfs1] using
            (ihFrame t'.directory (t'.name ++ ".pdf")
              (fun u hu hEq => hhead u hu hEq.symm)).1
        · simpa only [runTasks, hfs1] using ihMiss t' ht' hmiss'

/-! ### More path lemmas -/

theorem strEndsWith_append_false (x b s : String) (hb : strEndsWith b s = false)
    (hlen : s.length ≤ b.length) : strEndsWith (x ++ b) s = false := by
  rw [Bool.eq_false_iff] at hb ⊢
  intro hcontra
  apply hb
  unfold strEndsWith at hcontra ⊢
  rw [List.isSuffixOf_iff_suffix] at hcontra ⊢
  rw [String.data_append] at hcontra
  exact List.suffix_of_suffix_length_le hcontra (List.suffix_append x.data b.data) hlen

theorem strEndsWith_pathJoin_false (a b s : String) (hb : strEndsWith b s = false)
    (hlen : s.length ≤ b.length) : strEndsWith (pathJoin a b) s = false := by
  unfold pathJoin
  split
  · exact hb
  · split
    · exact strEndsWith_append_false a b s hb hlen
    · rw [String.append_assoc]
      exact strEndsWith_append_false a ("/" ++ b) s
        (strEndsWith_append_false "/" b s hb hlen)
        (le_trans hlen (by rw [String.length_append]; omega))

/-! ### Dispatch lemmas -/

theorem dispatchLink_book (root : String) (link : Link)
    (h : link.original_type = "book") :
    dispatchLink root link =
      .ok (link.files.map fun file =>
        ⟨pathJoin (pathJoin root link.name) file.name, file.name⟩) := by
  simp [dispatchLink, book_handler, h]

theorem dispatchLink_single (root : String) (link : Link) (f : LinkFile)
    (rest : List LinkFile)
    (h : link.original_type = "preview" ∨ link.original_type = "page")
    (hf : link.files = f :: rest) :
    dispatchLink root link = .ok [⟨pathJoin root f.name, f.name⟩] := by
  rcases h with h | h <;> simp [dispatchLink, h, hf]

theorem dispatchLink_single_empty (root : String) (link : Link)
    (h : link.original_type = "preview" ∨ link.original_type = "page")
    (hf : link.files = []) :
    dispatchLink root link = .error .indexError := by
  rcases h with h | h <;> simp [dispatchLink, h, hf]

theorem dispatchLink_other (root : String) (link : Link)
    (h1 : link.original_type ≠ "book") (h2 : link.original_type ≠ "preview")
    (h3 : link.original_type ≠ "page") :
    dispatchLink root link = .ok [] := by
  unfold dispatchLink
  split <;> simp_all

theorem dispatchAll_cons_skip (root : String) (l : Link) (ls : List Link)
    (h : dispatchLink root l = .ok []) :
    dispatchAll root (l :: ls) = dispatchAll root ls := by
  simp only [dispatchAll, h]
  cases hr : dispatchAll root ls <;> rfl

theorem create_pdf_cons_skip (l : Link) (ls : List Link) (root : String) (fs : FS)
    (h : dispatchLink root l = .ok []) :
    create_pdf (l :: ls) root fs = create_pdf ls root fs := by
  unfold create_pdf
  rw [dispatchAll_cons_skip root l ls h]

theorem create_pdf_of_dispatch (links : List Link) (root : String) (fs : FS)
    (ts : List Task) (h : dispatchAll root links = .ok ts) :
    create_pdf links root fs = .ok (runTasks fs ts) := by
  unfold create_pdf
  rw [h]
  rfl

/-! ### Claim theorems -/

/-- C5: for every existing source directory that is empty, the assembly
task writes no output file (the filesystem is unchanged), raises no
error, and emits no error event: the merge of an empty input set produces
no output and empty input is not an error. -/
theorem claim5_empty_noop (fs : FS) (d nm : String) (h : listdir fs d = some []) :
    process fs d nm
        = ⟨fs, [.info ("Creating PDF: " ++ pathJoin d (nm ++ ".pdf"))], .ok⟩
      ∧ (process fs d nm).fs = fs
      ∧ (process fs d nm).outcome = .ok
      ∧ errorEvents (process fs d nm).log = [] := by
  have hp := process_of_emptyDir fs d nm h
  exact ⟨hp, by rw [hp], by rw [hp], by rw [hp]; rfl⟩

/-- Witness for C5: the empty directory of the concrete scenario. -/
theorem claim5_empty_noop_witness :
    process fsEmptyDir "/tmp/out/2024-01-02 10-00-00-000000" "2024-01-02 10-00-00-000000"
        = ⟨fsEmptyDir,
           [.info ("Creating PDF: " ++ pathJoin "/tmp/out/2024-01-02 10-00-00-000000"
              ("2024-01-02 10-00-00-000000" ++ ".pdf"))], .ok⟩
      ∧ (process fsEmptyDir "/tmp/out/2024-01-02 10-00-00-000000"
          "2024-01-02 10-00-00-000000").fs = fsEmptyDir
      ∧ (process fsEmptyDir "/tmp/out/2024-01-02 10-00-00-000000"
          "2024-01-02 10-00-00-000000").outcome = .ok
      ∧ errorEvents (process fsEmptyDir "/tmp/out/2024-01-02 10-00-00-000000"
          "2024-01-02 10-00-00-000000").log = [] :=
  claim5_empty_noop fsEmptyDir "/tmp/out/2024-01-02 10-00-00-000000"
    "2024-01-02 10-00-00-000000" (by decide)

/-- C6: `run()` returns only the fully drained result: whenever dispatch
succeeds with a task list, `create_pdf` returns exactly the state after
every dispatched task has been executed, and the returned result records
one completion outcome per dispatched task — no partial results. -/
theorem claim6_run_drains (links : List Link) (root : String) (fs : FS)
    (ts : List Task) (h : dispatchAll root links = .ok ts) :
    create_pdf links root fs = .ok (runTasks fs ts)
      ∧ (runTasks fs ts).outcomes.length = ts.length :=
  ⟨create_pdf_of_dispatch links root fs ts h, runTasks_outcomes_length fs ts⟩

/-- Witness for C6: the concrete scenario's two dispatched tasks. -/
theorem claim6_run_drains_witness :
    create_pdf [bookNovel] "/tmp/out" fsNovelCh2Missing
        = .ok (runTasks fsNovelCh2Missing
            [⟨"/tmp/out/novel/ch1", "ch1"⟩, ⟨"/tmp/out/novel/ch2", "ch2"⟩])
      ∧ (runTasks fsNovelCh2Missing
          [⟨"/tmp/out/novel/ch1", "ch1"⟩, ⟨"/tmp/out/novel/ch2", "ch2"⟩]).outcomes.length
          = 2 :=
  have h := claim6_run_drains [bookNovel] "/tmp/out" fsNovelCh2Missing
    [⟨"/tmp/out/novel/ch1", "ch1"⟩, ⟨"/tmp/out/novel/ch2", "ch2"⟩] (by decide)
  ⟨h.1, h.2⟩

/-- C7: a unit whose kind is anything other than "book", "preview" or
"page" (the unresolved case) is skipped silently: it contributes zero
assembly tasks, causes no filesystem write, raises no error, and the
whole pass behaves as if the unit were absent. -/
theorem claim7_unresolved_skip (root : String) (fs : FS) (link : Link)
    (ls : List Link) (h1 : link.original_type ≠ "book")
    (h2 : link.original_type ≠ "preview") (h3 : link.original_type ≠ "page") :
    dispatchLink root link = .ok []
      ∧ create_pdf (link :: ls) root fs = create_pdf ls root fs := by
  have hd := dispatchLink_other root link h1 h2 h3
  exact ⟨hd, create_pdf_cons_skip link ls root fs hd⟩

/-- Witness for C7: an unresolved link (empty kind string). -/
theorem claim7_unresolved_skip_witness :
    dispatchLink "/tmp/out" unresolvedLink = .ok []
      ∧ create_pdf [unresolvedLink] "/tmp/out" fsEmptyDir
          = create_pdf [] "/tmp/out" fsEmptyDir :=
  claim7_unresolved_skip "/tmp/out" fsEmptyDir unresolvedLink []
    (by decide) (by decide) (by decide)

/-- C8: a complete assembly pass leaves the in-memory unit list
unchanged: the object state after `run` equals the state before it, so
every Link's `original_type` (kind), `name` (displayName),
`original_link` (sourceLink) and `files` (subUnits, with every
LinkFile's `page_link`, `num_pages` and `name`) keep their values.  The
source contains no assignment to `self.links` or to any Link or LinkFile
field, so the functional embedding leaves the model untouched. -/
theorem claim8_no_mutation (s : CreatePDF) (fs : FS) :
    (s.run fs).1 = s
      ∧ (s.run fs).1.links = s.links
      ∧ (s.run fs).1.download_directory = s.download_directory :=
  ⟨rfl, rfl, rfl⟩

/-- C9: a unit whose kind is "preview" or "page" but whose files list is
empty is outside the spec's precondition, and there `run()` is not total:
dispatch evaluates `link.files[0]` and the IndexError propagates to the
caller of `run()` instead of completing the pass. -/
theorem claim9_preview_empty_raises (root : String) (fs : FS) :
    dispatchAll root [previewNoFiles] = .error .indexError
      ∧ create_pdf [previewNoFiles] root fs = .error .indexError := by
  have hd : dispatchLink root previewNoFiles = .error .indexError :=
    dispatchLink_single_empty root previewNoFiles (Or.inl rfl) rfl
  constructor
  · simp only [dispatchAll]
    rw [hd]
    rfl
  · unfold create_pdf
    simp only [dispatchAll]
    rw [hd]
    rfl

/-- C10: a Book unit with an empty sub-unit list (outside the spec's
precondition that Book units have at least one sub-unit) dispatches zero
assembly tasks, raises no error, and the pass continues exactly as it
would with the remaining units. -/
theorem claim10_empty_book_skip (root : String) (fs : FS) (link : Link)
    (ls : List Link) (hb : link.original_type = "book") (hf : link.files = []) :
    dispatchLink root link = .ok []
      ∧ create_pdf (link :: ls) root fs = create_pdf ls root fs := by
  have hd : dispatchLink root link = .ok [] := by
    rw [dispatchLink_book root link hb, hf]
    rfl
  exact ⟨hd, create_pdf_cons_skip link ls root fs hd⟩

/-- Witness for C10: an empty book followed by a preview unit. -/
theorem claim10_empty_book_skip_witness :
    dispatchLink "/tmp/out" bookNoFiles = .ok []
      ∧ create_pdf [bookNoFiles, previewOne] "/tmp/out" fsEmptyDir
          = create_pdf [previewOne] "/tmp/out" fsEmptyDir :=
  claim10_empty_book_skip "/tmp/out" fsEmptyDir bookNoFiles [previewOne]
    (by decide) (by decide)

/-- C2: the assembly task never re-sorts: the produced artifact's page
sequence is exactly the directory's natural listing order (each entry
joined to its full path); in particular, for a directory whose natural
listing is page-001.img … page-010.img in ascending numeric order, the
artifact's page order equals that ascending numeric order. -/
theorem claim2_order_preservation :
    (∀ fs d nm entries, listdir fs d = some entries → entries ≠ [] →
        ((entries.map (pathJoin d)).any fun file => strEndsWith file ".pdf") = false →
        readFile (process fs d nm).fs d (nm ++ ".pdf")
          = some (entries.map (pathJoin d)))
    ∧ ∀ fs d nm, listdir fs d = some pages10 →
        readFile (process fs d nm).fs d (nm ++ ".pdf")
          = some (pages10.map (pathJoin d)) := by
  have general : ∀ fs d nm entries, listdir fs d = some entries → entries ≠ [] →
      ((entries.map (pathJoin d)).any fun file => strEndsWith file ".pdf") = false →
      readFile (process fs d nm).fs d (nm ++ ".pdf")
        = some (entries.map (pathJoin d)) := by
    intro fs d nm entries h hne hany
    rw [process_of_ready fs d nm entries h hne hany]
    exact readFile_writeFile_self fs d (nm ++ ".pdf") (entries.map (pathJoin d))
  refine ⟨general, fun fs d nm h => general fs d nm pages10 h (by decide) ?_⟩
  rw [List.any_eq_false]
  intro x hx
  simp only [pages10, List.map_cons, List.map_nil, List.mem_cons,
    List.not_mem_nil, or_false] at hx
  rcases hx with rfl | rfl | rfl | rfl | rfl | rfl | rfl | rfl | rfl | rfl <;>
    simp only [Bool.not_eq_true] <;>
    exact strEndsWith_pathJoin_false d _ ".pdf" (by decide) (by decide)

/-- Witness for C2: the ten-page directory produces the artifact with
pages in ascending numeric order. -/
theorem claim2_order_preservation_witness :
    readFile (process fsPages10 "/tmp/out/scan" "scan").fs "/tmp/out/scan" "scan.pdf"
        = some ["/tmp/out/scan/page-001.img", "/tmp/out/scan/page-002.img",
                "/tmp/out/scan/page-003.img", "/tmp/out/scan/page-004.img",
                "/tmp/out/scan/page-005.img", "/tmp/out/scan/page-006.img",
                "/tmp/out/scan/page-007.img", "/tmp/out/scan/page-008.img",
                "/tmp/out/scan/page-009.img", "/tmp/out/scan/page-010.img"] :=
  claim2_order_preservation.2 fsPages10 "/tmp/out/scan" "scan" (by decide)

/-- C3: running the assembly task a second time on the same directory
after a successful first run changes nothing — same filesystem (hence the
same single output file, unmodified), no exception, only the "Creating
PDF" log line — and more generally whenever any directory entry already
ends with the output extension ".pdf" the task returns with no write at
all. -/
theorem claim3_idempotent (fs : FS) (d nm : String) (entries : List String)
    (h : listdir fs d = some entries) :
    (∀ e ∈ entries, strEndsWith e ".pdf" = true →
        (process fs d nm).fs = fs ∧ (process fs d nm).outcome = .ok)
    ∧ (entries ≠ [] →
       ((entries.map (pathJoin d)).any fun file => strEndsWith file ".pdf") = false →
       process (process fs d nm).fs d nm
         = ⟨(process fs d nm).fs,
            [.info ("Creating PDF: " ++ pathJoin d (nm ++ ".pdf"))], .ok⟩) := by
  constructor
  · intro e he hend
    have hany : ((entries.map (pathJoin d)).any fun file => strEndsWith file ".pdf") = true :=
      List.any_eq_true.mpr
        ⟨pathJoin d e, List.mem_map_of_mem (pathJoin d) he,
         strEndsWith_pathJoin d e ".pdf" hend⟩
    have hp := process_of_pdfEntry fs d nm entries h hany
    exact ⟨by rw [hp], by rw [hp]⟩
  · intro hne hany
    have hp := process_of_ready fs d nm entries h hne hany
    have hpdfend : strEndsWith (nm ++ ".pdf") ".pdf" = true :=
      strEndsWith_append_left nm ".pdf" ".pdf" (by decide)
    have hnotmem : (nm ++ ".pdf") ∉ entries := by
      intro hm
      have hc : ((entries.map (pathJoin d)).any fun file => strEndsWith file ".pdf") = true :=
        List.any_eq_true.mpr
          ⟨pathJoin d (nm ++ ".pdf"), List.mem_map_of_mem (pathJoin d) hm,
           strEndsWith_pathJoin d (nm ++ ".pdf") ".pdf" hpdfend⟩
      rw [hany] at hc
      exact Bool.false_ne_true hc
    have hld2 : listdir (process fs d nm).fs d = some (entries ++ [nm ++ ".pdf"]) := by
      rw [hp]
      have := listdir_writeFile_self fs d (nm ++ ".pdf") (entries.map (pathJoin d)) entries h
      rw [if_neg hnotmem] at this
      exact this
    have hany2 : (((entries ++ [nm ++ ".pdf"]).map (pathJoin d)).any
        fun file => strEndsWith file ".pdf") = true :=
      List.any_eq_true.mpr
        ⟨pathJoin d (nm ++ ".pdf"),
         List.mem_map_of_mem (pathJoin d)
           (List.mem_append_right entries (List.mem_singleton.mpr rfl)),
         strEndsWith_pathJoin d (nm ++ ".pdf") ".pdf" hpdfend⟩
    exact process_of_pdfEntry (process fs d nm).fs d nm (entries ++ [nm ++ ".pdf"]) hld2 hany2

/-- Witness for C3: the ten-page directory; after the first run writes
scan.pdf, the second run is a no-op. -/
theorem claim3_idempotent_witness :
    (∀ e ∈ pages10, strEndsWith e ".pdf" = true →
        (process fsPages10 "/tmp/out/scan" "scan").fs = fsPages10
        ∧ (process fsPages10 "/tmp/out/scan" "scan").outcome = .ok)
    ∧ (pages10 ≠ [] →
       ((pages10.map (pathJoin "/tmp/out/scan")).any fun file => strEndsWith file ".pdf") = false →
       process (process fsPages10 "/tmp/out/scan" "scan").fs "/tmp/out/scan" "scan"
         = ⟨(process fsPages10 "/tmp/out/scan" "scan").fs,
            [.info ("Creating PDF: " ++ pathJoin "/tmp/out/scan" ("scan" ++ ".pdf"))], .ok⟩) :=
  claim3_idempotent fsPages10 "/tmp/out/scan" "scan" pages10 (by decide)

/-- C4: dispatch fan-out.  For a Book unit the scheduler submits exactly
one task per sub-unit, the i-th addressed at directory
`pathJoin (pathJoin root displayName) subUnit.name` with artifact base
name `subUnit.name`, and — when sub-unit names are pairwise distinct and
relative — the task directories are pairwise distinct; for a Preview or
Page unit it submits exactly the one task addressed at
`pathJoin root subUnits[0].name` with base name `subUnits[0].name`. -/
theorem claim4_fanout (root : String) (link : Link) :
    (link.original_type = "book" →
      dispatchLink root link
          = .ok (link.files.map fun file =>
              ⟨pathJoin (pathJoin root link.name) file.name, file.name⟩)
        ∧ (link.files.map fun file =>
            (⟨pathJoin (pathJoin root link.name) file.name, file.name⟩ : Task)).length
            = link.files.length
        ∧ ((∀ f ∈ link.files, strStartsWith f.name "/" = false) →
           link.files.Pairwise (fun a b => a.name ≠ b.name) →
           (link.files.map fun file =>
              (⟨pathJoin (pathJoin root link.name) file.name, file.name⟩ : Task)).Pairwise
             fun a b => a.directory ≠ b.directory))
    ∧ ∀ f rest, (link.original_type = "preview" ∨ link.original_type = "page") →
        link.files = f :: rest →
        dispatchLink root link = .ok [⟨pathJoin root f.name, f.name⟩] := by
  constructor
  · intro hb
    refine ⟨dispatchLink_book root link hb, List.length_map link.files _, ?_⟩
    intro hrel hnames
    rw [List.pairwise_map]
    refine hnames.imp_of_mem ?_
    intro a b ha hb hne hcontra
    exact hne (pathJoin_right_inj (pathJoin root link.name) a.name b.name
      (hrel a ha) (hrel b hb) hcontra)
  · intro f rest h hf
    exact dispatchLink_single root link f rest h hf

/-- Witness for C4: the two-chapter book and a one-file preview. -/
theorem claim4_fanout_witness :
    (dispatchLink "/tmp/out" bookNovel
        = .ok [⟨"/tmp/out/novel/ch1", "ch1"⟩, ⟨"/tmp/out/novel/ch2", "ch2"⟩])
      ∧ ([(⟨"/tmp/out/novel/ch1", "ch1"⟩ : Task), ⟨"/tmp/out/novel/ch2", "ch2"⟩].Pairwise
          fun a b => a.directory ≠ b.directory)
      ∧ dispatchLink "/tmp/out" previewOne
          = .ok [⟨"/tmp/out/2024-01-02 10-00-00-000000", "2024-01-02 10-00-00-000000"⟩] := by
  have hbook := (claim4_fanout "/tmp/out" bookNovel).1 (by decide)
  have hprev := (claim4_fanout "/tmp/out" previewOne).2
    ⟨"", 3, "2024-01-02 10-00-00-000000"⟩ [] (Or.inl (by decide)) (by decide)
  refine ⟨?_, ?_, ?_⟩
  · exact hbook.1
  · have hp := hbook.2.2 (by decide) (by decide)
    exact hp
  · exact hprev

/-- C1 (counterexample): in the spec's own concrete scenario — a book
whose ch1 source directory exists and whose ch2 directory is missing —
the pass completes without propagating the error and still produces
ch1's artifact, but the pass's log holds only the three info lines and
no error-severity event at all: zero DirectoryMissing events are logged,
not exactly one, refuting the claim's logging clause. -/
theorem claim1_counterexample :
    create_pdf [bookNovel] "/tmp/out" fsNovelCh2Missing
        = .ok ⟨⟨[("/tmp/out/novel/ch1", ["a.img", "b.img", "c.img", "ch1.pdf"])],
               [(("/tmp/out/novel/ch1", "ch1.pdf"),
                 ["/tmp/out/novel/ch1/a.img", "/tmp/out/novel/ch1/b.img",
                  "/tmp/out/novel/ch1/c.img"])]⟩,
              [.info "Creating PDF: /tmp/out/novel/ch1/ch1.pdf",
               .info "Created PDF: /tmp/out/novel/ch1/ch1.pdf",
               .info "Creating PDF: /tmp/out/novel/ch2/ch2.pdf"],
              [.ok, .exn .fileNotFoundError]⟩
      ∧ errorEvents
          [.info "Creating PDF: /tmp/out/novel/ch1/ch1.pdf",
           .info "Created PDF: /tmp/out/novel/ch1/ch1.pdf",
           .info "Creating PDF: /tmp/out/novel/ch2/ch2.pdf"] = [] := by
  constructor
  · decide
  · decide

/-- C1 (amended): for every unit list whose dispatched tasks have
pairwise distinct directories, where exactly one task's source directory
is missing, every other task's directory is ready, and the missing
task's artifact does not pre-exist: the task at the missing directory
aborts (its future records the FileNotFoundError and it writes nothing),
NO DirectoryMissing event is logged (the failure is silent: the
error-severity part of the log is empty), the error does not propagate
to the scheduler or the caller of run(), and every other task's artifact
is still produced. -/
theorem claim1_isolation (links : List Link) (root : String) (fs : FS)
    (pre post : List Task) (tm : Task)
    (hdisp : dispatchAll root links = .ok (pre ++ tm :: post))
    (hdisj : (pre ++ tm :: post).Pairwise fun a b => a.directory ≠ b.directory)
    (hmiss : listdir fs tm.directory = none)
    (hready : ∀ t ∈ pre ++ post, readyDir fs t = true)
    (habsent : readFile fs tm.directory (tm.name ++ ".pdf") = none) :
    create_pdf links root fs = .ok (runTasks fs (pre ++ tm :: post))
      ∧ errorEvents (runTasks fs (pre ++ tm :: post)).log = []
      ∧ (runTasks fs (pre ++ tm :: post)).outcomes
          = pre.map (fun _ => Outcome.ok)
            ++ Outcome.exn PyError.fileNotFoundError :: post.map (fun _ => Outcome.ok)
      ∧ (∀ t ∈ pre ++ post,
          (readFile (runTasks fs (pre ++ tm :: post)).fs t.directory
            (t.name ++ ".pdf")).isSome = true)
      ∧ readFile (runTasks fs (pre ++ tm :: post)).fs tm.directory
          (tm.name ++ ".pdf") = none := by
  have hmemFull : ∀ t ∈ pre ++ post, t ∈ pre ++ tm :: post := by
    intro t ht
    rcases List.mem_append.mp ht with hp | hq
    · exact List.mem_append_left _ hp
    · exact List.mem_append_right _ (List.mem_cons_of_mem tm hq)
  have hok : ∀ t ∈ pre ++ tm :: post,
      readyDir fs t = true ∨ listdir fs t.directory = none := by
    intro t ht
    rcases List.mem_append.mp ht with hp | hc
    · exact Or.inl (hready t (List.mem_append_left post hp))
    · rcases List.mem_cons.mp hc with rfl | hq
      · exact Or.inr hmiss
      · exact Or.inl (hready t (List.mem_append_right pre hq))
  obtain ⟨hOut, hProd, hFrame, hMiss⟩ :=
    runTasks_isolated fs (pre ++ tm :: post) hdisj hok
  refine ⟨create_pdf_of_dispatch links root fs (pre ++ tm :: post) hdisp,
          runTasks_errorEvents fs (pre ++ tm :: post), ?_, ?_, ?_⟩
  · rw [hOut, List.map_append, List.map_cons, hmiss]
    have hpre : pre.map (fun t => if (listdir fs t.directory).isNone then
        Outcome.exn .fileNotFoundError else .ok) = pre.map fun _ => Outcome.ok :=
      List.map_congr_left fun t ht => by
        rw [readyDir_isSome fs t (hready t (List.mem_append_left post ht))]
        rfl
    have hpost : post.map (fun t => if (listdir fs t.directory).isNone then
        Outcome.exn .fileNotFoundError else .ok) = post.map fun _ => Outcome.ok :=
      List.map_congr_left fun t ht => by
        rw [readyDir_isSome fs t (hready t (List.mem_append_right pre ht))]
        rfl
    rw [hpre, hpost]
    rfl
  · intro t ht
    exact hProd t (hmemFull t ht) (hready t ht)
  · rw [hMiss tm (List.mem_append_right pre (List.mem_cons_self tm post)) hmiss]
    exact habsent

/-- Witness for C1 (amended): the concrete scenario, with ch1's task
ready and ch2's directory missing. -/
theorem claim1_isolation_witness :
    create_pdf [bookNovel] "/tmp/out" fsNovelCh2Missing
        = .ok (runTasks fsNovelCh2Missing
            ([⟨"/tmp/out/novel/ch1", "ch1"⟩] ++ ⟨"/tmp/out/novel/ch2", "ch2"⟩ :: []))
      ∧ errorEvents (runTasks fsNovelCh2Missing
          ([⟨"/tmp/out/novel/ch1", "ch1"⟩] ++ ⟨"/tmp/out/novel/ch2", "ch2"⟩ :: [])).log = []
      ∧ (runTasks fsNovelCh2Missing
          ([⟨"/tmp/out/novel/ch1", "ch1"⟩] ++ ⟨"/tmp/out/novel/ch2", "ch2"⟩ :: [])).outcomes
          = [(⟨"/tmp/out/novel/ch1", "ch1"⟩ : Task)].map (fun _ => Outcome.ok)
            ++ Outcome.exn PyError.fileNotFoundError
              :: ([] : List Task).map (fun _ => Outcome.ok)
      ∧ (∀ t ∈ [(⟨"/tmp/out/novel/ch1", "ch1"⟩ : Task)] ++ ([] : List Task),
          (readFile (runTasks fsNovelCh2Missing
              ([⟨"/tmp/out/novel/ch1", "ch1"⟩] ++ ⟨"/tmp/out/novel/ch2", "ch2"⟩ :: [])).fs
            t.directory (t.name ++ ".pdf")).isSome = true)
      ∧ readFile (runTasks fsNovelCh2Missing
            ([⟨"/tmp/out/novel/ch1", "ch1"⟩] ++ ⟨"/tmp/out/novel/ch2", "ch2"⟩ :: [])).fs
          "/tmp/out/novel/ch2" ("ch2" ++ ".pdf") = none :=
  claim1_isolation [bookNovel] "/tmp/out" fsNovelCh2Missing
    [⟨"/tmp/out/novel/ch1", "ch1"⟩] [] ⟨"/tmp/out/novel/ch2", "ch2"⟩
    (by decide) (by decide) (by decide) (by decide) (by decide)

end VnuLib
